import Mathlib

/-!
Formal model of the BabelGopher real-time speech pipeline core, shallowly
embedded from the TypeScript sources:

* `apps/web/src/hooks/useSTT.ts` — recognition state machine and
  inactivity-window segmentation,
* the conference orchestrator (echo suppression, dedup, delivery,
  remote TTS queuing),
* `apps/web/src/hooks/useTranslation.ts` — translation retry/fallback,
* `apps/web/src/lib/tts.ts` — `TTSService.speak`.

JavaScript `Map`s keyed by participant id are modelled per participant
(`Option` values stand for present/absent entries); the single-threaded
event-loop semantics is modelled by explicit state-passing functions, one
per event handler, that return the updated state together with an ordered
trace of the handler's primitive effects.  Times are milliseconds as `Nat`.
-/

namespace BabelGopher

/-! ## Recognition state machine (useSTT.ts)

Per-participant projection of the hook's ref maps:
`activeTranscriptionsRef` (membership only), `isRestartingRef`,
`restartFailCountRef`, `hasErrorRef`, `lastErrorRef`,
`isRecognitionRunningRef`.  A `none` means the map has no entry for the
participant; `some v` an entry with value `v`. -/

structure PartState where
  isActive : Bool
  restartingFlag : Option Bool
  failCount : Option Nat
  errorFlag : Option Bool
  lastError : Option (Option String)
  runningFlag : Option Bool
deriving DecidableEq, Repr

/-- Primitive effects of `stopTranscription`, in the order the source
performs them. -/
inductive SttAction where
  | clearSegTimer
  | deleteSegment
  | deleteActive
  | deleteRestartFlag
  | deleteFailCount
  | deleteErrorFlag
  | deleteRunningFlag
  | recognizerStop
deriving DecidableEq, Repr

/-- `stopTranscription(participantId)` from useSTT.ts (lines 426-462):
if the participant is tracked, clear the segmentation timer and buffer,
delete the participant from every tracking map, and only then call
`recognition.stop()`.  The action list records the source order of these
steps. -/
def stopTranscription (s : PartState) : PartState × List SttAction :=
  if s.isActive then
    ({ isActive := false, restartingFlag := none, failCount := none,
       errorFlag := none, lastError := s.lastError, runningFlag := none },
     [.clearSegTimer, .deleteSegment, .deleteActive, .deleteRestartFlag,
      .deleteFailCount, .deleteErrorFlag, .deleteRunningFlag, .recognizerStop])
  else (s, [])

/-- Outcome of the recognizer `onEnd` handler. -/
inductive EndOutcome where
  /-- participant not in the active map: intentional stop, no restart -/
  | intentionalStop
  /-- ended after a non-recoverable error: tracking cleared, no restart -/
  | nonRecoverableStop
  /-- a restart is already in flight: skip -/
  | skipDuplicate
  /-- three consecutive restart failures: give up, tracking cleared -/
  | giveUp
  /-- a restart timer was scheduled with the given cooldown in ms -/
  | scheduleRestart (cooldownMs : Nat)
deriving DecidableEq, Repr

/-- The recognizer `onEnd` handler from useSTT.ts (lines 281-389).
Mirrors the source's control flow: mark not running; bail out if the
participant is no longer tracked; classify a pending error
(`no-speech` / `audio-capture` recoverable, everything else terminal);
skip if already restarting; give up at three consecutive restart
failures; otherwise schedule a restart after a 250ms cooldown. -/
def onEnd (s : PartState) : PartState × EndOutcome :=
  let s1 : PartState := { s with runningFlag := some false }
  if s1.isActive = false then
    (s1, .intentionalStop)
  else
    let hadError := s1.errorFlag.getD false
    let lastErr := s1.lastError.getD none
    if hadError ∧ ¬(lastErr = some "no-speech" ∨ lastErr = some "audio-capture") then
      ({ s1 with isActive := false, restartingFlag := none, failCount := none,
                 errorFlag := some false, lastError := some none },
       .nonRecoverableStop)
    else
      let s2 := if hadError then
                  { s1 with errorFlag := some false, lastError := some none }
                else s1
      if s2.restartingFlag.getD false then
        (s2, .skipDuplicate)
      else if 3 ≤ s2.failCount.getD 0 then
        ({ s2 with isActive := false, restartingFlag := none, failCount := none },
         .giveUp)
      else
        ({ s2 with restartingFlag := some true }, .scheduleRestart 250)

/-- The restart-timer callback scheduled by `onEnd` (useSTT.ts lines
349-388).  `startThrows` abstracts whether `recognition.start()` throws.
On a successful start the fail counter resets to 0; on a throw it is
incremented and the running flag rolled back; the restarting flag is
cleared in every branch (the source's `finally`). -/
def restartAfterCooldown (s : PartState) (startThrows : Bool) : PartState :=
  if s.isActive = false then
    { s with restartingFlag := some false }
  else if s.runningFlag.getD false = false then
    if startThrows then
      { s with failCount := some (s.failCount.getD 0 + 1),
               runningFlag := some false, restartingFlag := some false }
    else
      { s with runningFlag := some true, failCount := some 0,
               restartingFlag := some false }
  else
    { s with restartingFlag := some false }

/-! ## JS string helpers

`jsTrim` models JavaScript's `String.prototype.trim()` (whitespace
stripped from both ends) by structural recursion on the character list,
so that it evaluates inside the kernel. -/

/-- Whitespace as matched by JS `trim` / the regex class `\s`
(ASCII fragment). -/
def isWsChar (c : Char) : Bool :=
  c = ' ' || c = '\t' || c = '\n' || c = '\r'

/-- Drop leading and trailing whitespace from a character list. -/
def trimChars (l : List Char) : List Char :=
  ((l.dropWhile isWsChar).reverse.dropWhile isWsChar).reverse

/-- JS `s.trim()`. -/
def jsTrim (s : String) : String := String.mk (trimChars s.toList)

/-! ## Segmentation engine (useSTT.ts `onResult`, lines 153-254)

Every recognition event updates the per-participant segment buffer and
re-arms a 500ms inactivity timer; when the timer fires, the buffered text
(if non-empty after trimming) is emitted as a finalized record and a fresh
segment is opened.  The simulation processes a time-sorted event list;
ties between an event and a pending timer deadline are resolved in favour
of the event (the recognizer callback is delivered first), matching the
spec example "events at t=0, 400, 900 close at t=1400". -/

/-- Inactivity window from useSTT.ts line 101 (`const silenceMs = 500`). -/
def silenceMs : Nat := 500

structure RecEvent where
  time : Nat
  transcript : String
  isFinal : Bool
deriving DecidableEq, Repr

/-- Per-participant segment accumulator (the entries of `segmentRef`). -/
structure SegState where
  bufferText : String
  lastInterim : String
  lastActivityAt : Nat
  segmentId : Nat
  deadline : Option Nat
deriving DecidableEq, Repr

def freshSeg (sid : Nat) (now : Nat) : SegState :=
  { bufferText := "", lastInterim := "", lastActivityAt := now,
    segmentId := sid, deadline := none }

/-- JS `(a + " " + b).trim()`. -/
def joinTrim (a b : String) : String := jsTrim (a ++ " " ++ b)

/-- One `onResult` callback: update buffer/interim and re-arm the silence
timer at `e.time + silenceMs` (the source clears any pending timer and
sets a new one on every event). -/
def applyResult (seg : SegState) (e : RecEvent) : SegState :=
  let seg :=
    if e.isFinal then
      { seg with bufferText := joinTrim seg.bufferText e.transcript,
                 lastInterim := "", lastActivityAt := e.time }
    else
      { seg with lastInterim := e.transcript, lastActivityAt := e.time }
  { seg with deadline := some (e.time + silenceMs) }

/-- The silence-timer callback: emit the trimmed buffer as a finalized
record when non-empty, and open a brand-new segment with a fresh id. -/
def fireTimer (seg : SegState) (d : Nat) : Option (Nat × String) × SegState :=
  let finalText := jsTrim seg.bufferText
  ((if 0 < finalText.length then some (d, finalText) else none),
   freshSeg (seg.segmentId + 1) d)

/-- Result of simulating a sequence of recognition events: the finalized
records `(closeTime, text)`, the times at which the silence timer fired
(segment boundaries), and the final segment state. -/
structure SegRun where
  records : List (Nat × String)
  closes : List Nat
  seg : SegState
deriving DecidableEq, Repr

/-- Discrete-event simulation of the segmentation engine over a
time-sorted event list.  A pending deadline strictly before the next
event's time fires first (opening a fresh, timer-less segment); an event
at or before the deadline is delivered first and resets the timer.  After
the last event, a pending timer always fires. -/
def runEvents (seg : SegState) : List RecEvent → SegRun
  | [] =>
    match seg.deadline with
    | some d =>
      let (r, seg') := fireTimer seg d
      { records := r.toList, closes := [d], seg := seg' }
    | none => { records := [], closes := [], seg := seg }
  | e :: rest =>
    match seg.deadline with
    | some d =>
      if d < e.time then
        let (r, seg') := fireTimer seg d
        let out := runEvents (applyResult seg' e) rest
        { out with records := r.toList ++ out.records, closes := d :: out.closes }
      else
        runEvents (applyResult seg e) rest
    | none => runEvents (applyResult seg e) rest

/-- `timesChainWithin w t es` : each event arrives within `w` ms of its
predecessor (the first within `w` ms of time `t`). -/
def timesChainWithin (w : Nat) : Nat → List RecEvent → Prop
  | _, [] => True
  | t, e :: rest => e.time ≤ t + w ∧ timesChainWithin w e.time rest

instance : ∀ t es, Decidable (timesChainWithin silenceMs t es) := by
  intro t es
  induction es generalizing t with
  | nil => exact .isTrue trivial
  | cons e rest ih => exact @instDecidableAnd _ _ _ (ih e.time)

/-- Time of the last event in the list, or `t` when the list is empty. -/
def lastEventTime (t : Nat) : List RecEvent → Nat
  | [] => t
  | e :: rest => lastEventTime e.time rest

/-! ## Echo suppressor (conference orchestrator, `normalizeText` /
`noteTtsUtterance` / `isLikelyTtsEcho`)

The source normalizes with
`t.toLowerCase().replace(/[\p{P}\p{S}]+/gu, " ").replace(/\s+/g, " ").trim()`.
The embedding models the punctuation/symbol classes on the ASCII range
(every ASCII character of `\p{P}` or `\p{S}` — the four runs 0x21-0x2F,
0x3A-0x40, 0x5B-0x60, 0x7B-0x7E) and lower-casing via `Char.toLower`;
string lengths count characters (the source counts UTF-16 units — they
agree on the basic multilingual plane). -/

/-- ASCII fragment of the Unicode `\p{P}` (punctuation) and `\p{S}`
(symbol) character classes. -/
def isPunctOrSymbolChar (c : Char) : Bool :=
  let n := c.toNat
  (33 ≤ n && n ≤ 47) || (58 ≤ n && n ≤ 64) || (91 ≤ n && n ≤ 96) ||
    (123 ≤ n && n ≤ 126)

/-- Collapse every run of whitespace into a single space
(the `.replace(/\s+/g, " ")` step). -/
def squeezeWs : Bool → List Char → List Char
  | _, [] => []
  | prevWs, c :: rest =>
    if isWsChar c then
      (if prevWs then [] else [' ']) ++ squeezeWs true rest
    else c :: squeezeWs false rest

/-- `normalizeText` from the orchestrator: lowercase, replace
punctuation/symbol runs by a space, collapse whitespace, trim. -/
def normalizeText (s : String) : String :=
  let cs := s.toList.map Char.toLower
  let cs := cs.map (fun c => if isPunctOrSymbolChar c then ' ' else c)
  String.mk (trimChars (squeezeWs false cs))

/-- One entry of `lastTtsHistoryRef`: normalized text plus the
`Date.now()` at which `noteTtsUtterance` recorded it. -/
structure EchoEntry where
  norm : String
  atMs : Nat
deriving DecidableEq, Repr

/-- `noteTtsUtterance(t)`: prune entries 10s or older, append the
normalized text stamped `now`, keep the last 5 (`slice(-5)`). -/
def noteTtsUtterance (hist : List EchoEntry) (now : Nat) (t : String) :
    List EchoEntry :=
  let pruned := hist.filter (fun x => now - x.atMs < 10000)
  let appended := pruned ++ [{ norm := normalizeText t, atMs := now }]
  appended.drop (appended.length - 5)

/-- JS `a.includes(b)` on strings: `b` occurs contiguously inside `a`. -/
def strIncludes (a b : String) : Bool :=
  a.toList.tails.any (fun t => b.toList.isPrefixOf t)

/-- The per-entry test inside `isLikelyTtsEcho`'s loop: skip entries
older than 10s; match on exact equality of the normalized strings, or on
containment together with a length ratio `min/max ≥ 0.7` (the source's
float comparison is modelled exactly as `10 * min ≥ 7 * max`). -/
def entryMatches (now : Nat) (a : String) (item : EchoEntry) : Bool :=
  if 10000 < now - item.atMs then false
  else
    let b := item.norm
    if a = b then true
    else
      (strIncludes a b || strIncludes b a) &&
        decide (7 * max a.length b.length ≤ 10 * min a.length b.length)

/-- `isLikelyTtsEcho(recognized)`: normalize; an empty normalization never
matches; otherwise scan the history for a live matching entry. -/
def isLikelyTtsEcho (hist : List EchoEntry) (now : Nat) (recognized : String) :
    Bool :=
  let norm := normalizeText recognized
  if norm = "" then false
  else hist.any (entryMatches now norm)

/-- The matching predicate exactly as claim C4 words it (for the
refinement comparison with `isLikelyTtsEcho`): some history entry no
older than 10s matches the normalized candidate, by exact equality or by
containment with length ratio ≥ 0.7. -/
def claimedEchoMatch (hist : List EchoEntry) (now : Nat) (cand : String) :
    Prop :=
  ∃ item ∈ hist, now - item.atMs ≤ 10000 ∧
    (normalizeText cand = item.norm ∨
      ((strIncludes (normalizeText cand) item.norm = true ∨
        strIncludes item.norm (normalizeText cand) = true) ∧
       7 * max (normalizeText cand).length item.norm.length ≤
         10 * min (normalizeText cand).length item.norm.length))

instance (hist : List EchoEntry) (now : Nat) (cand : String) :
    Decidable (claimedEchoMatch hist now cand) := by
  unfold claimedEchoMatch
  infer_instance

/-! ## Delivery & dedup layer (conference orchestrator)

The "process new transcriptions" effect: TTS gate, dedup by
`participantId + "-" + timestamp` in a bounded insertion-ordered set
(`processedIdsRef`, cap 500, oldest evicted), echo drop, short-text drop,
subtitle upsert, data-channel broadcast, optional local TTS.  Language
detection (`LanguageDetector`) is modelled as unavailable, so the source
language is the record's `language || "en"`; the LiveKit room is modelled
as present (the broadcast is otherwise silently skipped). -/

/-- A finalized `TranscriptionSegment` as produced by useSTT.ts. -/
structure FinalRecord where
  participantId : String
  participantName : String
  text : String
  timestamp : Nat
  language : Option String
  isFinal : Bool
  segmentId : Option String
deriving DecidableEq, Repr

/-- The data-channel payload built in the broadcast step (field for
field, including the literal `type` string). -/
structure WirePayload where
  type : String
  text : String
  sourceLang : String
  segmentId : Option String
  speakerId : String
  speakerName : String
  timestamp : Nat
deriving DecidableEq, Repr

/-- The payload the orchestrator publishes for a finalized record. -/
def mkFinalPayload (rec : FinalRecord) (sourceLang : String) : WirePayload :=
  { type := "bg/transcription-final", text := rec.text,
    sourceLang := sourceLang, segmentId := rec.segmentId,
    speakerId := rec.participantId, speakerName := rec.participantName,
    timestamp := rec.timestamp }

/-- The receive-path filter in the `onData` handler:
`if (msg?.type !== "bg/transcription-final" || !msg.text) return`. -/
def acceptsRemoteMsg (msg : WirePayload) : Bool :=
  msg.type = "bg/transcription-final" && ¬(msg.text = "")

/-- `` `${participantId}-${timestamp}` ``, the dedup key. -/
def dedupeKey (rec : FinalRecord) : String :=
  rec.participantId ++ "-" ++ toString rec.timestamp

/-- Observable effects of processing one finalized record. -/
inductive OrchEffect where
  /-- `setSubtitles(filtered)` on a dropped record (echo / too short) -/
  | subtitlesFiltered (subId : String)
  /-- the single `setSubtitles` upsert of the finalized subtitle -/
  | subtitleUpsert (subId : String)
  /-- `publishData` of the wire payload on the data channel -/
  | broadcast (payload : WirePayload)
  /-- local TTS `speak` of the translated text -/
  | speakTts (text : String)
deriving DecidableEq, Repr

def isUpsertEffect : OrchEffect → Bool
  | .subtitleUpsert _ => true
  | _ => false

def isBroadcastEffect : OrchEffect → Bool
  | .broadcast _ => true
  | _ => false

/-- Subtitle id for a finalized record: `seg-{segmentId}` when the
segment id is present, otherwise a `subtitle-...` fallback id. -/
def finalSubId (rec : FinalRecord) : String :=
  match rec.segmentId with
  | some sid => "seg-" ++ sid
  | none => "subtitle-" ++ toString rec.timestamp

/-- Dedup set plus echo history, the orchestrator state this effect
reads and writes.  `processedIds` is in insertion order, oldest first
(a JS `Set` iterates in insertion order, so `values().next()` is the
oldest member). -/
structure OrchState where
  processedIds : List String
  echoHistory : List EchoEntry
deriving DecidableEq, Repr

/-- The "process new transcriptions" effect applied to the latest
record.  `ttsGated` is `isTtsSpeaking || Date.now() - lastTtsEndAt <
TTS_TAIL_MS`; `translated` abstracts the awaited translation result for
the record's text (the orchestrator falls back to the original text
itself when translation fails, so the subtitle/TTS text is whatever that
pipeline returned); `ttsOn` is `isTtsEnabled && isTTSAvailable`. -/
def processLatest (s : OrchState) (now : Nat) (ttsGated : Bool)
    (ttsOn : Bool) (translated : String → String) (rec : FinalRecord) :
    OrchState × List OrchEffect :=
  if ttsGated then (s, [])
  else if rec.isFinal = false then (s, [])
  else
    let key := dedupeKey rec
    if s.processedIds.contains key then (s, [])
    else
      let ids := s.processedIds ++ [key]
      let ids := if 500 < ids.length then ids.drop 1 else ids
      let s1 : OrchState := { s with processedIds := ids }
      if isLikelyTtsEcho s1.echoHistory now rec.text then
        (s1, (rec.segmentId.map (fun sid => OrchEffect.subtitlesFiltered ("seg-" ++ sid))).toList)
      else if (jsTrim rec.text).length < 3 then
        (s1, (rec.segmentId.map (fun sid => OrchEffect.subtitlesFiltered ("seg-" ++ sid))).toList)
      else
        let sourceLang := rec.language.getD "en"
        let subId := finalSubId rec
        let translatedText := translated rec.text
        let s2 : OrchState :=
          if ttsOn then
            { s1 with echoHistory := noteTtsUtterance s1.echoHistory now translatedText }
          else s1
        (s2,
         [.subtitleUpsert subId, .broadcast (mkFinalPayload rec sourceLang)] ++
           (if ttsOn then [.speakTts translatedText] else []))

/-! ## Subtitle partial-update effect (conference orchestrator)

The "handle partial updates" effect upserts the latest `PartialView`
into a processing subtitle.  Field names: `origPartialText` and
`translPartialText` model the source's `originalTextPartial` and
`translatedTextPartial`. -/

structure Subtitle where
  id : String
  speakerName : String
  originalText : String
  origPartialText : Option String
  translatedText : String
  translPartialText : Option String
  isProcessing : Bool
deriving DecidableEq, Repr

structure PartialView where
  participantId : String
  participantName : String
  segmentId : String
  text : String
deriving DecidableEq, Repr

/-- The `findIndex` + in-place-set step of the partials effect, as a
first-match recursion: `none` when no subtitle has the id; on the first
subtitle with the id, leave the whole list untouched when it is already
finalized (`isProcessing === false`), otherwise overwrite that one entry
with the new partial text and the processing flag. -/
def updateBySubId (subId : String) (latest : PartialView) :
    List Subtitle → Option (List Subtitle)
  | [] => none
  | s :: rest =>
    if s.id = subId then
      if s.isProcessing = false then
        some (s :: rest)
      else
        some ({ s with speakerName := latest.participantName,
                       origPartialText := some latest.text,
                       isProcessing := true } :: rest)
    else
      (updateBySubId subId latest rest).map (fun rest' => s :: rest')

/-- The partials effect: gated during/after TTS and on suspected echo;
otherwise find the subtitle `seg-{segmentId}`; if it exists and is
already finalized (`isProcessing === false`) return unchanged — never
regress it; if it exists and is processing, update the partial text in
place; otherwise append a fresh processing subtitle, keeping the last
200 (`slice(-200)`). -/
def applyPartialUpdate (subs : List Subtitle) (hist : List EchoEntry)
    (now : Nat) (ttsGated : Bool) (latest : PartialView) : List Subtitle :=
  if ttsGated then subs
  else if isLikelyTtsEcho hist now latest.text then subs
  else
    let subId := "seg-" ++ latest.segmentId
    match updateBySubId subId latest subs with
    | some subs' => subs'
    | none =>
      let fresh : Subtitle :=
        { id := subId, speakerName := latest.participantName,
          originalText := "", origPartialText := some latest.text,
          translatedText := "", translPartialText := none,
          isProcessing := true }
      let appended := subs ++ [fresh]
      appended.drop (appended.length - 200)

/-! ## Translation orchestrator (useTranslation.ts `translateText`)

The retry loop performs `maxRetries + 1 = 3` attempts, waiting
`50 * (attempt + 1)` ms after each failed attempt that is not the last;
on total failure the catch block records the error and returns the
original text.  Blank text or missing capability short-circuit to
`null`; a failed translator creation throws into the same catch. -/

/-- Outcome of one `translator.translate(text)` call. -/
inductive TrAttempt where
  | ok (t : String)
  | err (msg : String)
deriving DecidableEq, Repr

/-- What a `translateText` call produced: the returned value, how many
translate attempts ran, the backoff waits performed (in order), and the
error recorded via `setTranslationError`. -/
structure TranslateRun where
  result : Option String
  attemptsMade : Nat
  waitsMs : List Nat
  recordedError : Option String
deriving DecidableEq, Repr

/-- `const maxRetries = 2`. -/
def maxRetries : Nat := 2

/-- The `for (attempt = 0; attempt <= maxRetries; attempt++)` retry loop
over the listed attempt indices: stop at the first success; after a
failure that is not the final attempt, wait `50 * (attempt + 1)` ms.
Returns (successful text?, attempts made, waits, last error). -/
def attemptSeq (outcomes : Nat → TrAttempt) :
    List Nat → Option String × Nat × List Nat × Option String
  | [] => (none, 0, [], none)
  | i :: rest =>
    match outcomes i with
    | .ok t => (some t, 1, [], none)
    | .err m =>
      if rest.isEmpty then (none, 1, [], some m)
      else
        let next := attemptSeq outcomes rest
        (next.1, next.2.1 + 1, 50 * (i + 1) :: next.2.2.1, next.2.2.2)

/-- `translateText(text, options)` from useTranslation.ts (lines
130-236).  `available` is the `isTranslationAvailable` flag;
`translatorOk` whether `getTranslator` produced an instance; `outcomes`
the behaviour of the translator on each attempt index. -/
def translateTextModel (available : Bool) (translatorOk : Bool)
    (outcomes : Nat → TrAttempt) (text : String) : TranslateRun :=
  if jsTrim text = "" then
    { result := none, attemptsMade := 0, waitsMs := [], recordedError := none }
  else if available = false then
    { result := none, attemptsMade := 0, waitsMs := [], recordedError := none }
  else if translatorOk = false then
    { result := some text, attemptsMade := 0, waitsMs := [],
      recordedError := some "Failed to create translator" }
  else
    let res := attemptSeq outcomes (List.range (maxRetries + 1))
    match res.1 with
    | some t =>
      { result := some t, attemptsMade := res.2.1, waitsMs := res.2.2.1,
        recordedError := none }
    | none =>
      { result := some text, attemptsMade := res.2.1, waitsMs := res.2.2.1,
        recordedError := res.2.2.2 }

/-! ## Remote TTS queue drain (conference orchestrator flush effect)

On a remote participant's speaking → silent transition the orchestrator
debounces a 400ms settle timer per speaker; its callback drains that
speaker's queue with `while (queue.length > 0) { const text =
queue.shift(); if (!text) continue; noteTtsUtterance(text); await
speak(text, lang); }` — each `speak` is awaited before the next begins,
which the trace records as a `speakEnd` before the following
`speakStart`. -/

inductive TtsEvent where
  | note (t : String)
  | speakStart (t : String)
  | speakEnd (t : String)
deriving DecidableEq, Repr

/-- Event trace of the sequential drain loop. -/
def drainTrace : List String → List TtsEvent
  | [] => []
  | t :: rest =>
    if t = "" then drainTrace rest
    else .note t :: .speakStart t :: .speakEnd t :: drainTrace rest

/-- Trace checker: at most one utterance in flight, every `speakStart`
only when nothing is speaking, every `speakEnd` matching the utterance
that started.  `cur` is the utterance currently being spoken. -/
def seqOk : Option String → List TtsEvent → Bool
  | none, [] => true
  | some _, [] => false
  | cur, .note _ :: rest => seqOk cur rest
  | none, .speakStart t :: rest => seqOk (some t) rest
  | some _, .speakStart _ :: _ => false
  | some t, .speakEnd u :: rest => t == u && seqOk none rest
  | none, .speakEnd _ :: _ => false

/-- The settle delay passed to `setTimeout` when a remote speaker's
speaking indicator transitions true → false (400 in the source);
no timer is scheduled otherwise.  Scheduling cancels any pending timer
for the same speaker (debounce), which the caller models by replacing
the stored timer. -/
def scheduleFlushDelay (isRemote wasSpeaking nowSpeaking : Bool) :
    Option Nat :=
  if isRemote && wasSpeaking && !nowSpeaking then some 400 else none

/-! ## TTSService.speak (lib/tts.ts)

The synchronous prelude of `speak`: reject when uninitialized, resolve
immediately on blank text, resume a paused synthesizer, cancel when the
platform synthesizer is speaking or has pending utterances, reject when
no voice fits, then (after a 20ms flush delay, not modelled as a
separate step) hand the single new utterance to the synthesizer.  The
platform queue is the synthesizer's utterance list, head currently
speaking. -/

structure SynthState where
  queue : List String
  paused : Bool
deriving DecidableEq, Repr

inductive SpeakAction where
  | resumeSynth
  | cancelSynth
  | enqueueUtterance (t : String)
deriving DecidableEq, Repr

inductive SpeakOutcome where
  | rejectedNotInit
  | resolvedEmpty
  | rejectedNoVoice
  | proceeding
deriving DecidableEq, Repr

/-- `TTSService.speak(text, lang)` up to handing the utterance to the
synthesizer. -/
def speakOnSynth (st : SynthState) (initialized : Bool) (voiceOk : Bool)
    (text : String) : SynthState × List SpeakAction × SpeakOutcome :=
  if initialized = false then (st, [], .rejectedNotInit)
  else if jsTrim text = "" then (st, [], .resolvedEmpty)
  else
    let (st1, acts1) :=
      if st.paused then ({ st with paused := false }, [SpeakAction.resumeSynth])
      else (st, [])
    let busy := decide (st1.queue ≠ [])
    let (st2, acts2) :=
      if busy then ({ st1 with queue := [] }, acts1 ++ [SpeakAction.cancelSynth])
      else (st1, acts1)
    if voiceOk = false then (st2, acts2, .rejectedNoVoice)
    else ({ st2 with queue := st2.queue ++ [text] },
          acts2 ++ [SpeakAction.enqueueUtterance text], .proceeding)

/-- How the utterance's promise settles. -/
inductive PromiseOutcome where
  | resolved
  | rejected (msg : String)
deriving DecidableEq, Repr

/-- The `utterance.onerror` handler: `interrupted` and `canceled` are
treated as success (the promise resolves), as are the audio-device
errors `audio-hardware` and `audio-busy`; everything else rejects. -/
def onSynthError (err : String) : PromiseOutcome :=
  if err = "interrupted" || err = "canceled" then .resolved
  else if err = "audio-hardware" || err = "audio-busy" then .resolved
  else .rejected ("Speech synthesis error: " ++ err)

/-! ## Theorems -/

/-- C1: for an actively tracked participant, `stopTranscription` removes
the participant from the active-tracking map and clears its restart
flag, fail counter, error flag and running flag, and the trace of its
primitive steps performs the active-map removal strictly before the
underlying `recognition.stop()` call; consequently an `end` event
observed on the resulting state finds the participant unregistered and
does not schedule an auto-restart. -/
theorem stop_unregisters_before_recognizer_stop (s : PartState)
    (h : s.isActive = true) :
    ((stopTranscription s).1.isActive = false ∧
     (stopTranscription s).1.restartingFlag = none ∧
     (stopTranscription s).1.failCount = none ∧
     (stopTranscription s).1.errorFlag = none ∧
     (stopTranscription s).1.runningFlag = none) ∧
    (∃ i j : Nat, i < j ∧
      (stopTranscription s).2.get? i = some SttAction.deleteActive ∧
      (stopTranscription s).2.get? j = some SttAction.recognizerStop) ∧
    (onEnd (stopTranscription s).1).2 = EndOutcome.intentionalStop ∧
    (∀ c, (onEnd (stopTranscription s).1).2 ≠ EndOutcome.scheduleRestart c) := by
  have hs : stopTranscription s =
      ({ isActive := false, restartingFlag := none, failCount := none,
         errorFlag := none, lastError := s.lastError, runningFlag := none },
       [SttAction.clearSegTimer, SttAction.deleteSegment, SttAction.deleteActive,
        SttAction.deleteRestartFlag, SttAction.deleteFailCount,
        SttAction.deleteErrorFlag, SttAction.deleteRunningFlag,
        SttAction.recognizerStop]) := by
    unfold stopTranscription
    simp [h]
  rw [hs]
  refine ⟨⟨rfl, rfl, rfl, rfl, rfl⟩,
          ⟨2, 7, by norm_num, rfl, rfl⟩, rfl, ?_⟩
  intro c
  simp [onEnd]

/-- C1 witness: a concrete actively tracked participant state. -/
theorem stop_unregisters_before_recognizer_stop_witness :
    (({ isActive := true, restartingFlag := some false, failCount := some 1,
        errorFlag := some false, lastError := some none,
        runningFlag := some true } : PartState).isActive = true) ∧
    ((stopTranscription
        { isActive := true, restartingFlag := some false, failCount := some 1,
          errorFlag := some false, lastError := some none,
          runningFlag := some true }).1.isActive = false) :=
  ⟨rfl,
   (stop_unregisters_before_recognizer_stop
      { isActive := true, restartingFlag := some false, failCount := some 1,
        errorFlag := some false, lastError := some none,
        runningFlag := some true } rfl).1.1⟩

/-- C2: once the consecutive-restart-failure counter has reached 3, the
next `end` event for a still-tracked participant (no pending restart, no
pending non-recoverable error) takes the give-up path: the participant
is deleted from the active map and the restart-flag and fail-counter
maps, no restart is scheduled, and any further `end` event finds the
participant unregistered, so a 4th restart attempt is never made. -/
theorem giveup_after_three_consecutive_failures (s : PartState)
    (hact : s.isActive = true)
    (hrest : s.restartingFlag.getD false = false)
    (herr : s.errorFlag.getD false = false ∨
            s.lastError.getD none = some "no-speech" ∨
            s.lastError.getD none = some "audio-capture")
    (hfail : 3 ≤ s.failCount.getD 0) :
    (onEnd s).2 = EndOutcome.giveUp ∧
    (onEnd s).1.isActive = false ∧
    (onEnd s).1.restartingFlag = none ∧
    (onEnd s).1.failCount = none ∧
    (∀ c, (onEnd s).2 ≠ EndOutcome.scheduleRestart c) ∧
    (onEnd (onEnd s).1).2 = EndOutcome.intentionalStop ∧
    (∀ c, (onEnd (onEnd s).1).2 ≠ EndOutcome.scheduleRestart c) := by
  obtain ⟨a, rf, fc, ef, le, run⟩ := s
  simp only at hact hrest herr hfail
  subst hact
  unfold onEnd
  rcases herr with herr | herr | herr
  · simp only [herr] at *
    simp [hrest, hfail, Nat.not_lt.mpr hfail]
  · simp only [herr] at *
    by_cases hef : ef.getD false
    · simp [hef, herr, hrest, hfail]
    · simp [hef, herr, hrest, hfail]
  · simp only [herr] at *
    by_cases hef : ef.getD false
    · simp [hef, herr, hrest, hfail]
    · simp [hef, herr, hrest, hfail]

/-- C2 witness: a tracked participant whose fail counter is exactly 3. -/
theorem giveup_after_three_consecutive_failures_witness :
    (onEnd { isActive := true, restartingFlag := some false,
             failCount := some 3, errorFlag := some false,
             lastError := some none, runningFlag := some false }).2 =
      EndOutcome.giveUp :=
  (giveup_after_three_consecutive_failures
    { isActive := true, restartingFlag := some false, failCount := some 3,
      errorFlag := some false, lastError := some none,
      runningFlag := some false }
    rfl rfl (Or.inl rfl) (by decide)).1

/-- Every recognition event re-arms the silence timer to fire
`silenceMs` after that event. -/
lemma applyResult_deadline (seg : SegState) (e : RecEvent) :
    (applyResult seg e).deadline = some (e.time + silenceMs) := by
  unfold applyResult
  by_cases h : e.isFinal <;> simp [h]

/-- If the timer is armed for `t + silenceMs` and every subsequent event
arrives within `silenceMs` of its predecessor, the only segment close
happens `silenceMs` after the last event. -/
lemma runEvents_closes_of_chain (es : List RecEvent) :
    ∀ (seg : SegState) (t : Nat), seg.deadline = some (t + silenceMs) →
      timesChainWithin silenceMs t es →
      (runEvents seg es).closes = [lastEventTime t es + silenceMs] := by
  induction es with
  | nil =>
    intro seg t hd _
    unfold runEvents
    rw [hd]
    rfl
  | cons e rest ih =>
    intro seg t hd hchain
    obtain ⟨h1, h2⟩ := hchain
    unfold runEvents
    rw [hd]
    have hlt : ¬ (t + silenceMs < e.time) := by omega
    simp only [hlt, if_false]
    exact ih (applyResult seg e) e.time (applyResult_deadline _ _) h2

/-- C3: starting a fresh segment, if every recognition event arrives
within the 500ms silence window of its predecessor, the segment closes
exactly once, 500ms after the last event — each event within the window
re-arms the timer (second conjunct) and leaves the segment open.  In
particular events at t=0, t=400 and t=900 close the segment at t=1400,
and not at t=500. -/
theorem silence_window_closes_after_quiet_gap
    (e : RecEvent) (es : List RecEvent) (sid now : Nat)
    (hchain : timesChainWithin silenceMs e.time es) :
    (runEvents (freshSeg sid now) (e :: es)).closes =
      [lastEventTime e.time es + silenceMs] ∧
    (∀ (seg : SegState) (ev : RecEvent),
       (applyResult seg ev).deadline = some (ev.time + silenceMs)) ∧
    (runEvents (freshSeg 0 0)
        [⟨0, "hello", true⟩, ⟨400, "there", true⟩,
         ⟨900, "friend", true⟩]).closes = [1400] ∧
    ¬ (500 ∈ (runEvents (freshSeg 0 0)
        [⟨0, "hello", true⟩, ⟨400, "there", true⟩,
         ⟨900, "friend", true⟩]).closes) := by
  refine ⟨?_, fun seg ev => applyResult_deadline seg ev, by decide, by decide⟩
  show (runEvents (applyResult (freshSeg sid now) e) es).closes = _
  exact runEvents_closes_of_chain es _ e.time (applyResult_deadline _ _) hchain

/-- C3 witness: the spec's own example, events at t=0, 400, 900. -/
theorem silence_window_closes_after_quiet_gap_witness :
    (runEvents (freshSeg 0 0)
        [⟨0, "hello", true⟩, ⟨400, "there", true⟩,
         ⟨900, "friend", true⟩]).closes = [1400] :=
  (silence_window_closes_after_quiet_gap ⟨0, "hello", true⟩
      [⟨400, "there", true⟩, ⟨900, "friend", true⟩] 0 0
      (by decide)).2.2.1

/-- The per-entry loop body of `isLikelyTtsEcho`, as a proposition. -/
lemma entryMatches_eq_true_iff (now : Nat) (a : String) (item : EchoEntry) :
    entryMatches now a item = true ↔
      (now - item.atMs ≤ 10000 ∧
       (a = item.norm ∨
         ((strIncludes a item.norm = true ∨ strIncludes item.norm a = true) ∧
          7 * max a.length item.norm.length ≤
            10 * min a.length item.norm.length))) := by
  unfold entryMatches
  rcases Nat.lt_or_ge 10000 (now - item.atMs) with h1 | h1
  · rw [if_pos h1]
    constructor
    · intro h; cases h
    · rintro ⟨hle, -⟩; omega
  · rw [if_neg (Nat.not_lt.mpr h1)]
    by_cases h2 : a = item.norm
    · simp [h2, h1]
    · rw [if_neg h2]
      simp only [Bool.and_eq_true, Bool.or_eq_true, decide_eq_true_eq]
      constructor
      · rintro ⟨hor, hratio⟩; exact ⟨h1, Or.inr ⟨hor, hratio⟩⟩
      · rintro ⟨-, hcase⟩
        rcases hcase with hcase | hcase
        · exact absurd hcase h2
        · exact hcase

/-- C4 counterexample: `noteUtterance("!!!")` stores an entry whose
normalization is the empty string; the candidate `"??"` also normalizes
to the empty string, so a live history entry matches it by exact
equality — the claimed criterion holds — yet `isLikelyTtsEcho` returns
false (it rejects any candidate whose normalization is empty before
scanning the history). -/
theorem echo_iff_counterexample :
    isLikelyTtsEcho (noteTtsUtterance [] 0 "!!!") 0 "??" = false ∧
    claimedEchoMatch (noteTtsUtterance [] 0 "!!!") 0 "??" :=
  ⟨by decide, by decide⟩

/-- C4 (amended): `isLikelyTtsEcho` classifies a candidate as echo iff
its normalization (lowercase, punctuation/symbols stripped, whitespace
collapsed) is non-empty and some history entry no older than 10s matches
it — exactly equal, or one contains the other with length ratio
min/max ≥ 0.7.  In particular, after `noteUtterance("Hello there, how
are you")`, the candidate `"hello there how are you"` 5s later is
classified as echo. -/
theorem isLikelyTtsEcho_iff_matching_entry :
    (∀ (hist : List EchoEntry) (now : Nat) (cand : String),
       isLikelyTtsEcho hist now cand = true ↔
         (¬ (normalizeText cand = "") ∧ claimedEchoMatch hist now cand)) ∧
    isLikelyTtsEcho (noteTtsUtterance [] 0 "Hello there, how are you") 5000
      "hello there how are you" = true := by
  constructor
  · intro hist now cand
    unfold isLikelyTtsEcho
    by_cases h : normalizeText cand = ""
    · simp [h]
    · rw [if_neg h]
      simp only [List.any_eq_true, entryMatches_eq_true_iff]
      unfold claimedEchoMatch
      constructor
      · rintro ⟨x, hx, hcond⟩; exact ⟨h, x, hx, hcond⟩
      · rintro ⟨-, x, hx, hcond⟩; exact ⟨x, hx, hcond⟩
  · decide

/-- C4 witness: a concrete candidate differing from the noted utterance
only in case and punctuation is classified as echo. -/
theorem isLikelyTtsEcho_iff_matching_entry_witness :
    isLikelyTtsEcho [{ norm := "hello there how are you", atMs := 0 }] 5000
      "Hello there, how are you!" = true :=
  (isLikelyTtsEcho_iff_matching_entry.1
      [{ norm := "hello there how are you", atMs := 0 }] 5000
      "Hello there, how are you!").mpr ⟨by decide, by decide⟩

/-- The newly inserted dedup key survives the (possible) eviction of the
oldest entry: it is the last element of the capped set. -/
lemma mem_insertCap (l : List String) (k : String) :
    k ∈ (if 500 < (l ++ [k]).length then (l ++ [k]).drop 1 else l ++ [k]) := by
  split
  · rcases l with _ | ⟨a, l'⟩
    · simp_all
    · simp
  · simp

/-- The capped dedup set never exceeds 500 entries. -/
lemma insertCap_length_le (l : List String) (k : String) (h : l.length ≤ 500) :
    (if 500 < (l ++ [k]).length then (l ++ [k]).drop 1
     else l ++ [k]).length ≤ 500 := by
  by_cases hc : 500 < (l ++ [k]).length
  · rw [if_pos hc]
    simp only [List.length_drop, List.length_append, List.length_singleton]
    omega
  · rw [if_neg hc]
    omega

/-- A record already in the dedup set is dropped with no effects. -/
lemma processLatest_dup (s : OrchState) (now : Nat) (ttsOn : Bool)
    (translated : String → String) (rec : FinalRecord)
    (hdup : s.processedIds.contains (dedupeKey rec) = true) :
    processLatest s now false ttsOn translated rec = (s, []) := by
  have hmem : dedupeKey rec ∈ s.processedIds := List.mem_of_elem_eq_true hdup
  unfold processLatest
  by_cases hf : rec.isFinal = false
  · simp [hf]
  · simp [hf, hmem]

/-- Exact output of processing a fresh (not yet deduplicated) finalized
record that passes the echo and short-text filters. -/
lemma processLatest_fresh (s : OrchState) (now : Nat)
    (ttsOn : Bool) (translated : String → String) (rec : FinalRecord)
    (hfin : rec.isFinal = true)
    (hnew : s.processedIds.contains (dedupeKey rec) = false)
    (hecho : isLikelyTtsEcho s.echoHistory now rec.text = false)
    (hlen : 3 ≤ (jsTrim rec.text).length) :
    processLatest s now false ttsOn translated rec =
      ({ processedIds :=
           if 500 < (s.processedIds ++ [dedupeKey rec]).length
           then (s.processedIds ++ [dedupeKey rec]).drop 1
           else s.processedIds ++ [dedupeKey rec],
         echoHistory :=
           if ttsOn then
             noteTtsUtterance s.echoHistory now (translated rec.text)
           else s.echoHistory },
       [.subtitleUpsert (finalSubId rec),
        .broadcast (mkFinalPayload rec (rec.language.getD "en"))] ++
         (if ttsOn then [.speakTts (translated rec.text)] else [])) := by
  have hshort : ¬ ((jsTrim rec.text).length < 3) := Nat.not_lt.mpr hlen
  have hnotmem : dedupeKey rec ∉ s.processedIds := by
    intro hm
    simp at hnew
    exact hnew hm
  cases ttsOn <;>
  · unfold processLatest
    simp [hfin, hnotmem, hecho, hshort]

/-- C5: a finalized record that is not yet in the dedup set and passes
the echo and short-text filters produces exactly one subtitle upsert and
exactly one data-channel broadcast; replaying the identical record (same
participantId and timestamp, hence the same dedup key) a second time
produces no effects at all.  The dedup set stays bounded at 500 entries,
and when it is full the oldest (first-inserted) entry is the one
evicted. -/
theorem finalized_record_deduplicated_by_participant_timestamp
    (s : OrchState) (now : Nat) (ttsOn : Bool)
    (translated : String → String) (rec : FinalRecord)
    (hfin : rec.isFinal = true)
    (hnew : s.processedIds.contains (dedupeKey rec) = false)
    (hecho : isLikelyTtsEcho s.echoHistory now rec.text = false)
    (hlen : 3 ≤ (jsTrim rec.text).length)
    (hbound : s.processedIds.length ≤ 500) :
    ((processLatest s now false ttsOn translated rec).2.countP
        (fun e => isUpsertEffect e) = 1 ∧
     (processLatest s now false ttsOn translated rec).2.countP
        (fun e => isBroadcastEffect e) = 1) ∧
    (processLatest (processLatest s now false ttsOn translated rec).1
        now false ttsOn translated rec).2 = [] ∧
    (processLatest s now false ttsOn translated rec).1.processedIds.length
        ≤ 500 ∧
    (s.processedIds.length = 500 →
      (processLatest s now false ttsOn translated rec).1.processedIds =
        s.processedIds.tail ++ [dedupeKey rec]) := by
  rw [processLatest_fresh s now ttsOn translated rec hfin hnew hecho hlen]
  refine ⟨⟨?_, ?_⟩, ?_, ?_, ?_⟩
  · cases ttsOn <;> simp [isUpsertEffect, isBroadcastEffect, List.countP_cons,
      List.countP_append]
  · cases ttsOn <;> simp [isUpsertEffect, isBroadcastEffect, List.countP_cons,
      List.countP_append]
  · rw [processLatest_dup _ now ttsOn translated rec
        (List.elem_eq_true_of_mem (mem_insertCap _ _))]
  · exact insertCap_length_le _ _ hbound
  · intro hfull
    have : 500 < (s.processedIds ++ [dedupeKey rec]).length := by
      simp [hfull]
    simp only [this, if_pos]
    rw [List.drop_append_of_le_length (by omega), List.drop_one]

/-- C5 witness: an empty dedup set and a concrete finalized record. -/
theorem finalized_record_deduplicated_witness :
    (processLatest { processedIds := [], echoHistory := [] } 0 false false
        (fun t => t)
        { participantId := "p1", participantName := "Alice",
          text := "hello world", timestamp := 42, language := some "en",
          isFinal := true, segmentId := some "p1-42" }).2.countP
      (fun e => isUpsertEffect e) = 1 :=
  (finalized_record_deduplicated_by_participant_timestamp
    { processedIds := [], echoHistory := [] } 0 false (fun t => t)
    { participantId := "p1", participantName := "Alice",
      text := "hello world", timestamp := 42, language := some "en",
      isFinal := true, segmentId := some "p1-42" }
    rfl (by decide) (by decide) (by decide) (by decide)).1.1

/-- If the first subtitle carrying the id is already finalized, the
first-match update leaves the subtitle list untouched. -/
lemma updateBySubId_of_finalized (subId : String) (latest : PartialView)
    (subs : List Subtitle) (sub : Subtitle)
    (hfind : subs.find? (fun s => s.id = subId) = some sub)
    (hfinal : sub.isProcessing = false) :
    updateBySubId subId latest subs = some subs := by
  induction subs with
  | nil => simp [List.find?] at hfind
  | cons a rest ih =>
    rw [List.find?_cons] at hfind
    unfold updateBySubId
    by_cases h : a.id = subId
    · simp [h] at hfind
      rw [if_pos h]
      cases hfind
      rw [if_pos hfinal]
    · simp [h] at hfind
      rw [if_neg h, ih hfind]
      rfl

/-- C6: once a subtitle's `isProcessing` flag is false (finalized), a
later partial update for the same subtitle id leaves the subtitle list
unchanged — it neither flips the subtitle back to processing nor
overwrites its finalized text with partial text. -/
theorem finalized_subtitle_never_regressed (subs : List Subtitle)
    (hist : List EchoEntry) (now : Nat) (gated : Bool)
    (latest : PartialView) (sub : Subtitle)
    (hfind : subs.find? (fun s => s.id = ("seg-" ++ latest.segmentId)) =
      some sub)
    (hfinal : sub.isProcessing = false) :
    applyPartialUpdate subs hist now gated latest = subs := by
  unfold applyPartialUpdate
  by_cases hg : gated = true
  · rw [if_pos hg]
  · rw [if_neg hg]
    by_cases he : isLikelyTtsEcho hist now latest.text = true
    · rw [if_pos he]
    · rw [if_neg he]
      simp only [updateBySubId_of_finalized _ latest subs sub hfind hfinal]

/-- C6 witness: a finalized subtitle and a stale partial for its id. -/
theorem finalized_subtitle_never_regressed_witness :
    applyPartialUpdate
      [{ id := "seg-s1", speakerName := "Alice", originalText := "hello",
         origPartialText := none, translatedText := "bonjour",
         translPartialText := none, isProcessing := false }]
      [] 0 false
      { participantId := "p1", participantName := "Alice",
        segmentId := "s1", text := "hel" } =
      [{ id := "seg-s1", speakerName := "Alice", originalText := "hello",
         origPartialText := none, translatedText := "bonjour",
         translPartialText := none, isProcessing := false }] :=
  finalized_subtitle_never_regressed _ [] 0 false
    { participantId := "p1", participantName := "Alice",
      segmentId := "s1", text := "hel" }
    { id := "seg-s1", speakerName := "Alice", originalText := "hello",
      origPartialText := none, translatedText := "bonjour",
      translPartialText := none, isProcessing := false }
    (by decide) rfl

/-- The retry loop makes at most one attempt per listed attempt index. -/
lemma attemptSeq_attempts_le (outcomes : Nat → TrAttempt) (l : List Nat) :
    (attemptSeq outcomes l).2.1 ≤ l.length := by
  induction l with
  | nil => simp [attemptSeq]
  | cons i rest ih =>
    unfold attemptSeq
    cases outcomes i with
    | ok t => simp
    | err m =>
      by_cases h : rest.isEmpty
      · simp [h]
      · simp [h]
        omega

/-- C7: `translateText` returns `null` without any translate attempt on
blank text or when translation is unavailable; it never makes more than
3 attempts (1 initial + 2 retries); and when all three attempts fail it
waits 50ms after the first failure and 100ms after the second, records
the last error, and returns the original input text instead of raising. -/
theorem translate_retries_then_falls_back_to_original (text : String)
    (outcomes : Nat → TrAttempt) (m0 m1 m2 : String) :
    (jsTrim text = "" → ∀ avail trOk,
       translateTextModel avail trOk outcomes text =
         { result := none, attemptsMade := 0, waitsMs := [],
           recordedError := none }) ∧
    (¬ jsTrim text = "" → ∀ trOk,
       translateTextModel false trOk outcomes text =
         { result := none, attemptsMade := 0, waitsMs := [],
           recordedError := none }) ∧
    (∀ avail trOk,
       (translateTextModel avail trOk outcomes text).attemptsMade ≤ 3) ∧
    (outcomes 0 = .err m0 → outcomes 1 = .err m1 → outcomes 2 = .err m2 →
     ¬ jsTrim text = "" →
       translateTextModel true true outcomes text =
         { result := some text, attemptsMade := 3, waitsMs := [50, 100],
           recordedError := some m2 }) := by
  refine ⟨?_, ?_, ?_, ?_⟩
  · intro hb avail trOk
    unfold translateTextModel
    rw [if_pos hb]
  · intro hb trOk
    unfold translateTextModel
    rw [if_neg hb]
    rfl
  · intro avail trOk
    unfold translateTextModel
    by_cases hb : jsTrim text = ""
    · simp [hb]
    · rw [if_neg hb]
      cases avail with
      | false => simp
      | true =>
        cases trOk with
        | false => simp
        | true =>
          simp only [Bool.true_eq_false, if_false]
          have hle := attemptSeq_attempts_le outcomes
            (List.range (maxRetries + 1))
          cases hres : (attemptSeq outcomes (List.range (maxRetries + 1))).1
            <;> simp [hres] <;> simpa [maxRetries] using hle
  · intro h0 h1 h2 hb
    unfold translateTextModel
    rw [if_neg hb]
    have : List.range (maxRetries + 1) = [0, 1, 2] := by decide
    rw [this]
    unfold attemptSeq
    rw [h0]
    unfold attemptSeq
    rw [h1]
    unfold attemptSeq
    rw [h2]
    rfl

/-- C7 witness: a translator that fails on every attempt. -/
theorem translate_retries_witness :
    translateTextModel true true (fun _ => TrAttempt.err "transient")
        "hola mundo" =
      { result := some "hola mundo", attemptsMade := 3, waitsMs := [50, 100],
        recordedError := some "transient" } :=
  (translate_retries_then_falls_back_to_original "hola mundo"
      (fun _ => TrAttempt.err "transient") "transient" "transient"
      "transient").2.2.2 rfl rfl rfl (by decide)

/-- C8 counterexample: the broadcast payload's `type` field is the
namespaced string "bg/transcription-final", so the claim's wire shape
with `type = "transcription-final"` is false for every broadcast — shown
at a concrete record. -/
theorem wire_type_counterexample :
    ¬ ((mkFinalPayload
          { participantId := "p1", participantName := "Alice",
            text := "hi there", timestamp := 7, language := some "en",
            isFinal := true, segmentId := some "s1" } "en").type =
        "transcription-final") := by
  decide

/-- C8 (amended): every finalized record that passes dedup, the
short-text filter and echo suppression is broadcast exactly once, as a
payload carrying exactly the fields type, text, sourceLang, segmentId,
speakerId, speakerName, timestamp whose `type` equals
"bg/transcription-final"; and the remote receive path accepts precisely
messages with that same type value and non-empty text. -/
theorem broadcast_payload_shape (s : OrchState) (now : Nat) (ttsOn : Bool)
    (translated : String → String) (rec : FinalRecord)
    (hfin : rec.isFinal = true)
    (hnew : s.processedIds.contains (dedupeKey rec) = false)
    (hecho : isLikelyTtsEcho s.echoHistory now rec.text = false)
    (hlen : 3 ≤ (jsTrim rec.text).length) :
    (OrchEffect.broadcast (mkFinalPayload rec (rec.language.getD "en")) ∈
       (processLatest s now false ttsOn translated rec).2 ∧
     (processLatest s now false ttsOn translated rec).2.countP
       (fun e => isBroadcastEffect e) = 1) ∧
    mkFinalPayload rec (rec.language.getD "en") =
      { type := "bg/transcription-final", text := rec.text,
        sourceLang := rec.language.getD "en", segmentId := rec.segmentId,
        speakerId := rec.participantId, speakerName := rec.participantName,
        timestamp := rec.timestamp } ∧
    (∀ msg : WirePayload, acceptsRemoteMsg msg = true ↔
       (msg.type = "bg/transcription-final" ∧ ¬ (msg.text = ""))) := by
  rw [processLatest_fresh s now ttsOn translated rec hfin hnew hecho hlen]
  refine ⟨⟨?_, ?_⟩, rfl, ?_⟩
  · cases ttsOn <;> simp
  · cases ttsOn <;> simp [isBroadcastEffect, List.countP_cons,
      List.countP_append]
  · intro msg
    unfold acceptsRemoteMsg
    simp [Bool.and_eq_true, decide_eq_true_eq]

/-- C8 witness: a concrete finalized record is broadcast with the
namespaced type string. -/
theorem broadcast_payload_shape_witness :
    OrchEffect.broadcast
        (mkFinalPayload
          { participantId := "p1", participantName := "Alice",
            text := "hi there", timestamp := 7, language := some "en",
            isFinal := true, segmentId := some "s1" } "en") ∈
      (processLatest { processedIds := [], echoHistory := [] } 0 false false
        (fun t => t)
        { participantId := "p1", participantName := "Alice",
          text := "hi there", timestamp := 7, language := some "en",
          isFinal := true, segmentId := some "s1" }).2 :=
  (broadcast_payload_shape { processedIds := [], echoHistory := [] } 0 false
    (fun t => t)
    { participantId := "p1", participantName := "Alice",
      text := "hi there", timestamp := 7, language := some "en",
      isFinal := true, segmentId := some "s1" }
    rfl (by decide) (by decide) (by decide)).1.1

/-- The drain loop's trace never overlaps two utterances: each
`speakStart` occurs with nothing in flight and is closed by its own
`speakEnd` before the next `speakStart`. -/
lemma drainTrace_seqOk (q : List String) :
    seqOk none (drainTrace q) = true := by
  induction q with
  | nil => rfl
  | cons t rest ih =>
    unfold drainTrace
    by_cases h : t = ""
    · rw [if_pos h]
      exact ih
    · rw [if_neg h]
      simp [seqOk, ih]

/-- C9: draining a remote speaker's queued translations is strictly
sequential — the trace of the drain loop never starts a second
utterance before the previous one's completion (`seqOk`), and for two
queued strings the second `speak` appears only after the first's
`speakEnd`; the drain itself is scheduled with the 400ms settle delay
exactly on a remote speaking→silent transition. -/
theorem remote_tts_queue_drains_sequentially (q : List String)
    (a b : String) (ha : ¬ a = "") (hb : ¬ b = "") :
    seqOk none (drainTrace q) = true ∧
    drainTrace [a, b] =
      [.note a, .speakStart a, .speakEnd a,
       .note b, .speakStart b, .speakEnd b] ∧
    scheduleFlushDelay true true false = some 400 ∧
    (∀ r w n : Bool, (r && w && !n) = false →
       scheduleFlushDelay r w n = none) := by
  refine ⟨drainTrace_seqOk q, ?_, rfl, ?_⟩
  · simp [drainTrace, ha, hb]
  · intro r w n h
    unfold scheduleFlushDelay
    rw [h]
    rfl

/-- C9 witness: two concrete queued translations. -/
theorem remote_tts_queue_drains_sequentially_witness :
    drainTrace ["bonjour", "salut"] =
      [.note "bonjour", .speakStart "bonjour", .speakEnd "bonjour",
       .note "salut", .speakStart "salut", .speakEnd "salut"] :=
  (remote_tts_queue_drains_sequentially ["bonjour", "salut"]
    "bonjour" "salut" (by decide) (by decide)).2.1

/-- C10: `TTSService.speak` with non-blank text (service initialized,
voice available) leaves the synthesizer with exactly the one new
utterance; when the synthesizer was busy (in-progress or pending
utterances), the trace cancels immediately before enqueuing, and no
cancel is issued when it was idle; the error handler resolves (treats as
success) the `interrupted` and `canceled` errors raised for the
utterance a later `speak` call cancels. -/
theorem speak_cancels_before_enqueue (st : SynthState) (text : String)
    (hne : ¬ jsTrim text = "") :
    ((speakOnSynth st true true text).1.queue = [text] ∧
     (speakOnSynth st true true text).1.queue.length ≤ 1) ∧
    (¬ st.queue = [] →
      ((speakOnSynth st true true text).2.1 =
         [SpeakAction.cancelSynth, SpeakAction.enqueueUtterance text] ∨
       (speakOnSynth st true true text).2.1 =
         [SpeakAction.resumeSynth, SpeakAction.cancelSynth,
          SpeakAction.enqueueUtterance text])) ∧
    (st.queue = [] →
      SpeakAction.cancelSynth ∉ (speakOnSynth st true true text).2.1) ∧
    onSynthError "interrupted" = PromiseOutcome.resolved ∧
    onSynthError "canceled" = PromiseOutcome.resolved := by
  obtain ⟨q, p⟩ := st
  by_cases hq : q = []
  · cases p <;> simp [speakOnSynth, onSynthError, hne, hq]
  · cases p <;> simp [speakOnSynth, onSynthError, hne, hq]

/-- C10 witness: a busy synthesizer receiving a new utterance. -/
theorem speak_cancels_before_enqueue_witness :
    (speakOnSynth { queue := ["older utterance"], paused := false } true true
        "new utterance").2.1 =
      [SpeakAction.cancelSynth, SpeakAction.enqueueUtterance "new utterance"] ∨
    (speakOnSynth { queue := ["older utterance"], paused := false } true true
        "new utterance").2.1 =
      [SpeakAction.resumeSynth, SpeakAction.cancelSynth,
       SpeakAction.enqueueUtterance "new utterance"] :=
  (speak_cancels_before_enqueue
    { queue := ["older utterance"], paused := false } "new utterance"
    (by decide)).2.1 (by decide)

end BabelGopher
